import Mathlib

/-!
Verification development for the yoga-bot per-user scheduling engine
(`bot/utils.py`, `bot/scheduler.py`, `bot/storage.py`).

Modelling conventions:
* Instants are minutes since an epoch that falls on a Monday 00:00; `Int`
  throughout.  Python's `//` and `%` on ints are floor division and
  nonnegative remainder for positive divisors, which coincide with Lean's
  `Int` `/` (ediv) and `%` (emod) there.
* A timezone is abstracted as a fixed offset in minutes from UTC (pytz's
  database becomes a partial lookup; DST transitions are outside the model).
  The local reading of a UTC instant `t` in a zone with offset `off` is
  `t + off`.
* The wall-clock time-of-day of a local instant `t` is `t % 1440`, and its
  weekday (Monday = 0 … Sunday = 6) is `(t / 1440) % 7`, matching
  `datetime.weekday()`.
* Fallible Python code (a raised exception that a caller catches) is
  rendered with `Option`/`Except`.
-/

/-- Model of the pytz timezone database: a partial map from zone name to a
fixed UTC offset in minutes.  `none` models `pytz.exceptions.UnknownTimeZoneError`
being raised by `pytz.timezone`.  Only a finite sample of zones is carried;
every name outside the sample is "unrecognized". -/
def pytzTimezone : String → Option Int
  | "UTC" => some 0
  | "Europe/Moscow" => some 180
  | "Asia/Tashkent" => some 300
  | "America/New_York" => some (-300)
  | _ => none

/-- Model of `is_valid_timezone` (utils.py:94-100): true exactly when
`pytz.timezone` does not raise. -/
def is_valid_timezone (timezone_str : String) : Bool :=
  (pytzTimezone timezone_str).isSome

/-- Model of `str.split(sep)` on a single-character separator, keeping
empty fields exactly as Python does. -/
def splitOnChar (c : Char) : List Char → List (List Char)
  | [] => [[]]
  | a :: rest =>
    match splitOnChar c rest with
    | [] => if a = c then [[], []] else [[a]]
    | g :: gs => if a = c then [] :: g :: gs else (a :: g) :: gs

/-- Value of a decimal digit character, `none` otherwise. -/
def charDigit? (c : Char) : Option Nat :=
  if c.isDigit then some (c.toNat - 48) else none

/-- Model of `int(s)` on an unsigned decimal token: `none` (a raised
`ValueError`) on an empty token or any non-digit character. -/
def parseNatDigits (cs : List Char) : Option Nat :=
  if cs = [] then none
  else cs.foldl (fun acc c =>
    match acc, charDigit? c with
    | some n, some d => some (n * 10 + d)
    | _, _ => none) (some 0)

/-- Model of `int(s)`: optional leading minus, then decimal digits. -/
def parseIntStr : List Char → Option Int
  | '-' :: rest => (parseNatDigits rest).map (fun n => -(n : Int))
  | cs => (parseNatDigits cs).map (fun n => (n : Int))

/-- Model of `map(int, time_str.split(":"))` unpacked into two values
(utils.py:120): `none` when the split does not give exactly two integer
tokens (Python raises `ValueError`, caught only far up the stack). -/
def parseTimeHM (s : String) : Option (Int × Int) :=
  match splitOnChar ':' s.data with
  | [hs, ms] =>
    match parseIntStr hs, parseIntStr ms with
    | some h, some m => some (h, m)
    | _, _ => none
  | _ => none

/-- Model of `is_valid_time_format` (utils.py:103-109): `strptime("%H:%M")`
succeeds exactly when the string is `H:M` with `0 ≤ H ≤ 23`, `0 ≤ M ≤ 59`. -/
def is_valid_time_format (time_str : String) : Bool :=
  match parseTimeHM time_str with
  | some (h, m) => decide (0 ≤ h ∧ h ≤ 23 ∧ 0 ≤ m ∧ m ≤ 59)
  | none => false

/-- Model of `get_user_local_time` (utils.py:112-132).  Takes the reference
instant `utcNow` (the value of `datetime.now` as a UTC minute count) and
returns the next occurrence of the target wall-clock time as a *local*
minute count in the user's zone, or `none` when Python would raise
(`ValueError` from `int`/tuple unpacking or from `replace` on an
out-of-range hour/minute).  An unrecognized timezone silently falls back to
UTC (offset 0), exactly as the source's `except UnknownTimeZoneError` arm does. -/
def get_user_local_time (user_timezone : String) (target_time : String)
    (utcNow : Int) : Option Int :=
  let off := (pytzTimezone user_timezone).getD 0
  match parseTimeHM target_time with
  | none => none
  | some (h, m) =>
    if h < 0 ∨ 23 < h ∨ m < 0 ∨ 59 < m then none
    else
      let now := utcNow + off
      let target := now - now % 1440 + (h * 60 + m)
      some (if target ≤ now then target + 1440 else target)

/-- Model of `should_skip_today` (utils.py:135-139): the local weekday of
`target_datetime` (Monday = 0) is in the skip list. -/
def should_skip_today (skip_days : List Int) (t : Int) : Bool :=
  decide ((t / 1440) % 7 ∈ skip_days)

/-- Fuel-indexed unfolding of the `while should_skip_today` loop of
`get_next_send_time` (utils.py:147-148).  `some r` means the loop exits
within `fuel` iterations with value `r`; `none` means it has not exited
after `fuel` day-advances.  The source's loop is unbounded, but whenever
some weekday is not skipped it exits within 7 checks, so fuel 7 is exact;
`none` at fuel 7 models the source diverging (a skip list covering all 7
weekdays). -/
def skipAdvance (skip_days : List Int) : Nat → Int → Option Int
  | 0, _ => none
  | fuel + 1, t =>
    if should_skip_today skip_days t then skipAdvance skip_days fuel (t + 1440)
    else some t

/-- Model of `get_next_send_time` (utils.py:142-150): next target occurrence,
then advance whole days while the weekday is skipped.  Result is a local
minute count in the user's zone. -/
def get_next_send_time (user_timezone : String) (target_time : String)
    (skip_days : List Int) (utcNow : Int) : Option Int :=
  match get_user_local_time user_timezone target_time utcNow with
  | none => none
  | some t => skipAdvance skip_days 7 t

/-- Model of `validate_skip_days` (utils.py:153-162): every entry is an
integer between 0 and 6.  The length of the list is not inspected. -/
def validate_skip_days (skip_days : List Int) : Bool :=
  skip_days.all (fun day => decide (0 ≤ day ∧ day ≤ 6))

/-- Exception classes reaching the retry loop's handlers
(scheduler.py:189-206): `telegram.error.Forbidden`, `telegram.error.BadRequest`,
other `telegram.error.TelegramError`s, and any other `Exception`. -/
inductive PyExn where
  | forbidden
  | badRequest
  | telegramError
  | otherError
deriving DecidableEq

deriving instance DecidableEq for Except

/-- Environment for one iteration of the retry loop: the transport outcome
of a `send_photo` call and of a `send_message` call, were they attempted on
this iteration. -/
structure AttemptEnv where
  photo : Except PyExn Unit
  text : Except PyExn Unit
deriving DecidableEq

/-- Model of the body of one retry-loop iteration (scheduler.py:139-187),
up to the point where an exception would reach the outer handlers.
`hasPid` models `principle_id` being truthy, `hasImg` the result of
`has_principle_image`, `pathSome` the result of `get_principle_image_path`
being non-None.  When an image is attempted, any exception from
`send_photo` is caught by the inner handler (scheduler.py:165) and the same
iteration falls back to `send_message`; otherwise `send_message` is called
directly. -/
def tryBody (hasPid hasImg pathSome : Bool) (env : AttemptEnv) :
    Except PyExn Unit :=
  if hasPid && hasImg && pathSome then
    match env.photo with
    | Except.ok _ => Except.ok ()
    | Except.error _ => env.text
  else env.text

/-- Result of `_send_message_with_retry` together with its storage side
effects: the returned boolean, whether `storage.deactivate_user` was
called, and how many loop iterations ran. -/
structure RetryState where
  success : Bool
  deactivated : Bool
  attemptsUsed : Nat
deriving DecidableEq

/-- Model of `_send_message_with_retry` (scheduler.py:136-208).  The list
`envs` supplies one `AttemptEnv` per available iteration; its length is the
`max_retries` bound (3 in the source).  `Forbidden` deactivates the user
and returns `False` at once; `BadRequest` returns `False` at once;
`TelegramError` and any other exception fall through to the next iteration;
an exhausted loop returns `False`. -/
def send_message_with_retry (hasPid hasImg pathSome : Bool) :
    List AttemptEnv → RetryState
  | [] => ⟨false, false, 0⟩
  | env :: rest =>
    match tryBody hasPid hasImg pathSome env with
    | Except.ok _ => ⟨true, false, 1⟩
    | Except.error PyExn.forbidden => ⟨false, true, 1⟩
    | Except.error PyExn.badRequest => ⟨false, false, 1⟩
    | Except.error PyExn.telegramError =>
      let r := send_message_with_retry hasPid hasImg pathSome rest
      ⟨r.success, r.deactivated, r.attemptsUsed + 1⟩
    | Except.error PyExn.otherError =>
      let r := send_message_with_retry hasPid hasImg pathSome rest
      ⟨r.success, r.deactivated, r.attemptsUsed + 1⟩

/-- Classification of an iteration outcome that the loop retries
(scheduler.py:198-206). -/
def isRetryableOutcome : Except PyExn Unit → Bool
  | Except.error PyExn.telegramError => true
  | Except.error PyExn.otherError => true
  | _ => false

/-- Classification of an iteration outcome that ends the loop with `False`
on the spot (scheduler.py:189-196). -/
def isTerminalFailure : Except PyExn Unit → Bool
  | Except.error PyExn.forbidden => true
  | Except.error PyExn.badRequest => true
  | _ => false

/-- Model of the `User` dataclass (storage.py:11-28), restricted to the
fields the scheduler paths read (`last_feedback_time` is unused there). -/
structure User where
  chat_id : Int
  language : String
  timezone : String
  time_for_send : String
  skip_day_id : List Int
  is_active : Bool
deriving DecidableEq

/-- A pending APScheduler job as installed by `_schedule_user_message`.
The source keys jobs by the string `user_{chat_id}_{timestamp}` and removes
by the prefix `user_{chat_id}_`; since chat ids are decimal integers the
prefix matches exactly the jobs of that chat id, so the model keys jobs by
the chat id directly.  `fire_at` is the naive minute count handed to
`DateTrigger`, which the UTC-configured scheduler reads as a UTC instant. -/
structure Job where
  chat_id : Int
  fire_at : Int
deriving DecidableEq

/-- Model of the fire instant computed by `_schedule_user_message`
(scheduler.py:68-75).  `get_next_send_time` yields an aware local instant;
line 75 (`astimezone().astimezone(tz=None).replace(tzinfo=None)`) rewrites
it as the *host machine's* local wall clock and drops the zone, so the
naive value handed to the UTC scheduler is the true UTC instant plus the
host offset `machineOff` (in minutes). -/
def schedule_fire_instant (machineOff : Int) (u : User) (utcNow : Int) :
    Option Int :=
  match get_next_send_time u.timezone u.time_for_send u.skip_day_id utcNow with
  | none => none
  | some r => some (r - (pytzTimezone u.timezone).getD 0 + machineOff)

/-- The absolute UTC instant denoted by the aware datetime of
scheduler.py:68-72, before the line-75 conversion: the instant the job is
*meant* to fire at. -/
def true_utc_fire_instant (u : User) (utcNow : Int) : Option Int :=
  match get_next_send_time u.timezone u.time_for_send u.skip_day_id utcNow with
  | none => none
  | some r => some (r - (pytzTimezone u.timezone).getD 0)

/-- Model of `_schedule_user_message` acting on the job table
(scheduler.py:77-95): remove every job of this user, then install the new
one.  When computing the fire time raises (`none`), the surrounding
`except` (scheduler.py:97) leaves the table unchanged. -/
def schedule_user_message (machineOff : Int) (u : User) (utcNow : Int)
    (jobs : List Job) : List Job :=
  match schedule_fire_instant machineOff u utcNow with
  | none => jobs
  | some f =>
    (jobs.filter (fun j => decide (j.chat_id ≠ u.chat_id))) ++ [⟨u.chat_id, f⟩]

/-- Model of `storage.get_user` over an in-memory user table
(storage.py:105-111). -/
def findUser (storage : List User) (chat : Int) : Option User :=
  storage.find? (fun u => decide (u.chat_id = chat))

/-- Observable effects of one run of `_send_principle_to_user`
(scheduler.py:100-134): whether `_send_message_with_retry` was reached,
whether `add_sent_log` was called, whether `_schedule_user_message` was
called for the user, and whether `deactivate_user` was called. -/
structure FireEffects where
  delivery_called : Bool
  sent_log : Bool
  rescheduled : Bool
  deactivated : Bool
deriving DecidableEq

/-- Model of `_send_principle_to_user` (scheduler.py:100-134).  The user is
re-fetched from `storage` at fire time; a missing or inactive user, or an
empty principle pool (`hasPrinciple = false`), returns before any delivery.
On a successful send the sent log is written and the next job is scheduled;
on a failed send neither happens. -/
def send_principle_fire (storage : List User) (chat : Int)
    (hasPrinciple hasPid hasImg pathSome : Bool) (envs : List AttemptEnv) :
    FireEffects :=
  match findUser storage chat with
  | none => ⟨false, false, false, false⟩
  | some u =>
    if u.is_active = false then ⟨false, false, false, false⟩
    else if hasPrinciple = false then ⟨false, false, false, false⟩
    else
      let r := send_message_with_retry hasPid hasImg pathSome envs
      if r.success then ⟨true, true, true, r.deactivated⟩
      else ⟨true, false, false, r.deactivated⟩

/-- Model of `_schedule_all_users` (scheduler.py:54-62), the daily
reconciliation sweep: schedule every active user in turn, each through
`_schedule_user_message`. -/
def schedule_all_users (machineOff utcNow : Int) (storage : List User)
    (jobs : List Job) : List Job :=
  (storage.filter (fun u => u.is_active)).foldl
    (fun js u => schedule_user_message machineOff u utcNow js) jobs

/-- Helper: a run of the retry loop whose every iteration outcome is
retryable exhausts the loop: it returns failure, deactivates nobody and
uses every iteration. -/
theorem retry_all_retryable (p i s : Bool) (envs : List AttemptEnv)
    (h : ∀ e ∈ envs, isRetryableOutcome (tryBody p i s e) = true) :
    send_message_with_retry p i s envs = ⟨false, false, envs.length⟩ := by
  induction envs with
  | nil => rfl
  | cons env rest ih =>
    have he : isRetryableOutcome (tryBody p i s env) = true :=
      h env (List.mem_cons_self env rest)
    have hr := ih (fun e hm => h e (List.mem_cons_of_mem env hm))
    cases htb : tryBody p i s env with
    | ok u =>
      rw [htb] at he
      exact absurd he (by simp [isRetryableOutcome])
    | error ex =>
      cases ex with
      | forbidden =>
        rw [htb] at he
        exact absurd he (by simp [isRetryableOutcome])
      | badRequest =>
        rw [htb] at he
        exact absurd he (by simp [isRetryableOutcome])
      | telegramError =>
        simp only [send_message_with_retry, htb, hr, List.length_cons]
      | otherError =>
        simp only [send_message_with_retry, htb, hr, List.length_cons]

/-- Helper: a list of at most 6 integers misses some weekday 0..6. -/
theorem exists_unskipped_weekday (skip : List Int) (h : skip.length ≤ 6) :
    ∃ w : Int, 0 ≤ w ∧ w < 7 ∧ w ∉ skip := by
  by_contra hc
  push_neg at hc
  have hsub : (Finset.range 7).image (fun n : Nat => (n : Int)) ⊆
      skip.toFinset := by
    intro w hw
    simp only [Finset.mem_image, Finset.mem_range] at hw
    obtain ⟨n, hn, rfl⟩ := hw
    exact List.mem_toFinset.mpr
      (hc n (by exact_mod_cast Nat.zero_le n) (by exact_mod_cast hn))
  have hcard : ((Finset.range 7).image (fun n : Nat => (n : Int))).card = 7 := by
    rw [Finset.card_image_of_injective _ (fun a b hab => by exact_mod_cast hab)]
    simp
  have h1 := Finset.card_le_card hsub
  have h2 := List.toFinset_card_le skip
  omega

/-- Helper: if some candidate within the fuel bound is not skipped, the
day-advancing loop exits with a value that keeps the wall-clock time of
day, does not go backwards, and lands on an unskipped day. -/
theorem skipAdvance_spec (skip : List Int) :
    ∀ (fuel : Nat) (t : Int),
      (∃ i : Nat, i < fuel ∧
        should_skip_today skip (t + 1440 * (i : Int)) = false) →
      ∃ r, skipAdvance skip fuel t = some r ∧
        should_skip_today skip r = false ∧
        r % 1440 = t % 1440 ∧ t ≤ r := by
  intro fuel
  induction fuel with
  | zero =>
    rintro t ⟨i, hi, _⟩
    omega
  | succ f ih =>
    rintro t ⟨i, hi, hns⟩
    by_cases hs : should_skip_today skip t = true
    · have hi0 : i ≠ 0 := by
        intro h0
        rw [h0] at hns
        simp only [Nat.cast_zero, mul_zero, add_zero] at hns
        rw [hs] at hns
        cases hns
      obtain ⟨j, rfl⟩ : ∃ j, i = j + 1 := ⟨i - 1, by omega⟩
      have heq : t + 1440 * ((j + 1 : Nat) : Int) = (t + 1440) + 1440 * (j : Int) := by
        push_cast
        ring
      rw [heq] at hns
      obtain ⟨r, hadv, hrs, hrmod, hrle⟩ := ih (t + 1440) ⟨j, by omega, hns⟩
      refine ⟨r, ?_, hrs, by omega, by omega⟩
      simp only [skipAdvance, hs, if_true]
      exact hadv
    · have hs' : should_skip_today skip t = false := by
        revert hs
        cases should_skip_today skip t <;> simp
      exact ⟨t, by simp only [skipAdvance, hs', if_false, Bool.false_eq_true], hs', rfl, le_refl t⟩

/-- Helper: the next-occurrence computation succeeds on a well-formed
HH:MM string, lands strictly after the local reference reading, and has the
requested wall-clock time of day. -/
theorem get_user_local_time_spec (tz time : String) (utcNow h m : Int)
    (hp : parseTimeHM time = some (h, m))
    (hb : 0 ≤ h ∧ h ≤ 23 ∧ 0 ≤ m ∧ m ≤ 59) :
    ∃ t, get_user_local_time tz time utcNow = some t ∧
      utcNow + (pytzTimezone tz).getD 0 < t ∧ t % 1440 = h * 60 + m := by
  obtain ⟨h0, h23, m0, m59⟩ := hb
  simp only [get_user_local_time, hp]
  rw [if_neg (by omega)]
  refine ⟨_, rfl, ?_, ?_⟩
  · split <;> omega
  · split <;> omega

/-- Helper: full specification of the resolver on valid inputs. -/
theorem get_next_send_time_spec (tz time : String) (skip : List Int)
    (utcNow h m : Int)
    (hp : parseTimeHM time = some (h, m))
    (hb : 0 ≤ h ∧ h ≤ 23 ∧ 0 ≤ m ∧ m ≤ 59)
    (hskip : skip.length ≤ 6) :
    ∃ r, get_next_send_time tz time skip utcNow = some r ∧
      utcNow + (pytzTimezone tz).getD 0 < r ∧
      r % 1440 = h * 60 + m ∧
      (r / 1440) % 7 ∉ skip := by
  obtain ⟨t0, hg, hlt, hmod⟩ := get_user_local_time_spec tz time utcNow h m hp hb
  obtain ⟨w, hw0, hw7, hwns⟩ := exists_unskipped_weekday skip hskip
  have hi0 : 0 ≤ (w - t0 / 1440) % 7 := Int.emod_nonneg _ (by norm_num)
  have hi7 : (w - t0 / 1440) % 7 < 7 := Int.emod_lt_of_pos _ (by norm_num)
  have hcast : (((w - t0 / 1440) % 7).toNat : Int) = (w - t0 / 1440) % 7 :=
    Int.toNat_of_nonneg hi0
  have hweek : ((t0 + 1440 * (((w - t0 / 1440) % 7).toNat : Int)) / 1440) % 7 = w := by
    rw [hcast]
    omega
  have hskipfalse :
      should_skip_today skip (t0 + 1440 * (((w - t0 / 1440) % 7).toNat : Int)) = false := by
    simp only [should_skip_today, decide_eq_false_iff_not]
    rw [hweek]
    exact hwns
  obtain ⟨r, hadv, hns, hrmod, hrle⟩ :=
    skipAdvance_spec skip 7 t0 ⟨((w - t0 / 1440) % 7).toNat, by omega, hskipfalse⟩
  refine ⟨r, ?_, by omega, by omega, ?_⟩
  · simp only [get_next_send_time, hg]
    exact hadv
  · simp only [should_skip_today, decide_eq_false_iff_not] at hns
    exact hns

/-- Helper: scheduling any user never removes the last job of a chat id
that already has one (it either leaves the table alone, keeps the job, or
replaces it with a fresh job for the same chat id). -/
theorem schedule_user_message_preserves (machineOff utcNow : Int) (v : User)
    (js : List Job) (c : Int) (h : ∃ j ∈ js, j.chat_id = c) :
    ∃ j ∈ schedule_user_message machineOff v utcNow js, j.chat_id = c := by
  obtain ⟨j, hj, hc⟩ := h
  unfold schedule_user_message
  cases hf : schedule_fire_instant machineOff v utcNow with
  | none => exact ⟨j, hj, hc⟩
  | some f =>
    by_cases hvc : j.chat_id = v.chat_id
    · exact ⟨⟨v.chat_id, f⟩, by simp, by rw [← hvc, hc]⟩
    · refine ⟨j, ?_, hc⟩
      simp only [List.mem_append, List.mem_filter]
      exact Or.inl ⟨hj, by simpa using hvc⟩

/-- Helper: a chat id that has a job keeps having one through any sequence
of scheduling steps. -/
theorem foldl_schedule_preserves (machineOff utcNow : Int) (l : List User)
    (js : List Job) (c : Int) (h : ∃ j ∈ js, j.chat_id = c) :
    ∃ j ∈ l.foldl (fun a v => schedule_user_message machineOff v utcNow a) js,
      j.chat_id = c := by
  induction l generalizing js with
  | nil => exact h
  | cons v rest ih =>
    simp only [List.foldl_cons]
    exact ih _ (schedule_user_message_preserves machineOff utcNow v js c h)

/-- Helper: folding the per-user scheduling step over a list containing a
user whose fire instant computes installs a job for that user. -/
theorem foldl_schedule_creates (machineOff utcNow : Int) (u : User) (f : Int)
    (hf : schedule_fire_instant machineOff u utcNow = some f) :
    ∀ (l : List User) (js : List Job), u ∈ l →
      ∃ j ∈ l.foldl (fun a v => schedule_user_message machineOff v utcNow a) js,
        j.chat_id = u.chat_id := by
  intro l
  induction l with
  | nil =>
    intro js h
    cases h
  | cons v rest ih =>
    intro js hmem
    rcases List.mem_cons.mp hmem with rfl | hrest
    · simp only [List.foldl_cons]
      apply foldl_schedule_preserves
      unfold schedule_user_message
      rw [hf]
      exact ⟨⟨u.chat_id, f⟩, by simp, rfl⟩
    · simp only [List.foldl_cons]
      exact ih _ hrest

/-- Helper: the daily sweep installs a job for every active stored user
whose fire instant computes. -/
theorem sweep_schedules_active_user (machineOff utcNow : Int)
    (storage : List User) (jobs : List Job) (u : User) (f : Int)
    (hmem : u ∈ storage) (hact : u.is_active = true)
    (hf : schedule_fire_instant machineOff u utcNow = some f) :
    ∃ j ∈ schedule_all_users machineOff utcNow storage jobs,
      j.chat_id = u.chat_id := by
  unfold schedule_all_users
  exact foldl_schedule_creates machineOff utcNow u f hf _ jobs
    (List.mem_filter.mpr ⟨hmem, hact⟩)

/-- Claim C3 (confirmed): for every valid input — recognized timezone,
well-formed HH:MM time, skip list of size at most 6, reference instant —
`get_next_send_time` returns an instant strictly after the reference
instant (compared as absolute instants: the local result `r` denotes the
UTC instant `r - off`), whose local weekday (Monday = 0 … Sunday = 6) is
not in the skip list, and whose local time of day equals the configured
time. -/
theorem c3_next_send_time_valid (tz time : String) (skip : List Int)
    (utcNow off h m : Int)
    (hoff : pytzTimezone tz = some off)
    (hp : parseTimeHM time = some (h, m))
    (hv : is_valid_time_format time = true)
    (hskip : skip.length ≤ 6) :
    ∃ r, get_next_send_time tz time skip utcNow = some r ∧
      utcNow < r - off ∧
      (r / 1440) % 7 ∉ skip ∧
      r % 1440 = h * 60 + m := by
  have hb : 0 ≤ h ∧ h ≤ 23 ∧ 0 ≤ m ∧ m ≤ 59 := by
    simp only [is_valid_time_format, hp] at hv
    exact of_decide_eq_true hv
  obtain ⟨r, hr, hlt, hmod, hwd⟩ :=
    get_next_send_time_spec tz time skip utcNow h m hp hb hskip
  rw [hoff, Option.getD_some] at hlt
  exact ⟨r, hr, by omega, hwd, hmod⟩

/-- Witness for C3 at timezone UTC, time 08:00, skip {Sat, Sun},
reference instant 0 (a Monday midnight). -/
theorem c3_next_send_time_valid_witness :
    ∃ r, get_next_send_time "UTC" "08:00" [5, 6] 0 = some r ∧
      (0 : Int) < r - 0 ∧
      (r / 1440) % 7 ∉ [(5 : Int), 6] ∧
      r % 1440 = 8 * 60 + 0 :=
  c3_next_send_time_valid "UTC" "08:00" [5, 6] 0 0 8 0 rfl rfl (by decide)
    (by decide)

/-- Claim C4 counterexample: the full skip set {0,…,6} is *not* rejected by
`validate_skip_days` — the validator accepts it — and it does reach the
resolver, where the day-advancing loop never exits (modelled by fuel 7
returning `none`). -/
theorem c4_counterexample :
    validate_skip_days [0, 1, 2, 3, 4, 5, 6] = true ∧
    get_next_send_time "UTC" "08:00" [0, 1, 2, 3, 4, 5, 6] 0 = none := by
  decide

/-- Claim C4 as amended (corrected): for every skip list of size at most 6
the day-advancing loop terminates within 7 iterations; however,
`validate_skip_days` does not reject a skip set containing all 7 weekdays —
it accepts any list of integers in 0..6 regardless of size. -/
theorem c4_termination_and_validation (skip : List Int) (t : Int)
    (hskip : skip.length ≤ 6) :
    (skipAdvance skip 7 t).isSome = true ∧
    validate_skip_days [0, 1, 2, 3, 4, 5, 6] = true := by
  refine ⟨?_, by decide⟩
  obtain ⟨w, hw0, hw7, hwns⟩ := exists_unskipped_weekday skip hskip
  have hi0 : 0 ≤ (w - t / 1440) % 7 := Int.emod_nonneg _ (by norm_num)
  have hi7 : (w - t / 1440) % 7 < 7 := Int.emod_lt_of_pos _ (by norm_num)
  have hcast : (((w - t / 1440) % 7).toNat : Int) = (w - t / 1440) % 7 :=
    Int.toNat_of_nonneg hi0
  have hskipfalse :
      should_skip_today skip (t + 1440 * (((w - t / 1440) % 7).toNat : Int)) = false := by
    simp only [should_skip_today, decide_eq_false_iff_not]
    have : ((t + 1440 * (((w - t / 1440) % 7).toNat : Int)) / 1440) % 7 = w := by
      rw [hcast]
      omega
    rw [this]
    exact hwns
  obtain ⟨r, hadv, -, -, -⟩ :=
    skipAdvance_spec skip 7 t ⟨((w - t / 1440) % 7).toNat, by omega, hskipfalse⟩
  rw [hadv]
  rfl

/-- Witness for C4 (amended) with the singleton skip list {Monday}. -/
theorem c4_termination_and_validation_witness :
    (skipAdvance [0] 7 0).isSome = true ∧
    validate_skip_days [0, 1, 2, 3, 4, 5, 6] = true :=
  c4_termination_and_validation [0] 0 (by decide)

/-- Claim C2 counterexample: for the unrecognized timezone name
"Atlantis/Foo" the resolver does *not* fail — it computes a result (the
fallback `tz = pytz.UTC` arm of utils.py:116-117 silently replaces the
unknown zone by UTC). -/
theorem c2_counterexample :
    pytzTimezone "Atlantis/Foo" = none ∧
    (get_next_send_time "Atlantis/Foo" "08:00" [] 0).isSome = true := by
  decide

/-- Claim C2 as amended (corrected): for every unrecognized timezone name,
the resolver does not fail; it silently substitutes UTC and returns exactly
what it would return for the timezone name "UTC". -/
theorem c2_unknown_timezone_falls_back_to_utc (tz time : String)
    (skip : List Int) (utcNow : Int) (h : pytzTimezone tz = none) :
    get_next_send_time tz time skip utcNow =
      get_next_send_time "UTC" time skip utcNow := by
  unfold get_next_send_time get_user_local_time
  rw [h]
  rfl

/-- Witness for C2 (amended) at the concrete unrecognized name. -/
theorem c2_unknown_timezone_falls_back_to_utc_witness :
    get_next_send_time "Atlantis/Foo" "08:00" [] 0 =
      get_next_send_time "UTC" "08:00" [] 0 :=
  c2_unknown_timezone_falls_back_to_utc "Atlantis/Foo" "08:00" [] 0 rfl

/-- Claim C5 counterexample: on a host whose local timezone is UTC+3
(offset 180 minutes), the naive `fire_at` handed to the UTC-configured
scheduler for a Moscow user differs from the true UTC instant the aware
datetime denotes — the installed fire time is not expressed in UTC.  The
line-75 chain `astimezone().astimezone(tz=None).replace(tzinfo=None)`
produces the host-local wall clock, which the scheduler then reads as UTC. -/
theorem c5_counterexample :
    schedule_fire_instant 180 ⟨1, "en", "Europe/Moscow", "08:00", [], true⟩ 0 ≠
      true_utc_fire_instant ⟨1, "en", "Europe/Moscow", "08:00", [], true⟩ 0 := by
  decide

/-- Claim C5 as amended (corrected): when the host machine's timezone is
UTC (`machineOff = 0`), every installed `fire_at` equals the true UTC
instant, is strictly in the future at creation time, and falls on a
non-skipped local weekday at the user's configured local time of day; on a
non-UTC host the installed value is that instant shifted by the host
offset. -/
theorem c5_fire_instant_on_utc_host (u : User) (utcNow off h m : Int)
    (hoff : pytzTimezone u.timezone = some off)
    (hp : parseTimeHM u.time_for_send = some (h, m))
    (hv : is_valid_time_format u.time_for_send = true)
    (hskip : u.skip_day_id.length ≤ 6) :
    ∃ f, schedule_fire_instant 0 u utcNow = some f ∧
      true_utc_fire_instant u utcNow = some f ∧
      utcNow < f ∧
      ((f + off) / 1440) % 7 ∉ u.skip_day_id ∧
      (f + off) % 1440 = h * 60 + m := by
  have hb : 0 ≤ h ∧ h ≤ 23 ∧ 0 ≤ m ∧ m ≤ 59 := by
    simp only [is_valid_time_format, hp] at hv
    exact of_decide_eq_true hv
  obtain ⟨r, hr, hlt, hmod, hwd⟩ :=
    get_next_send_time_spec u.timezone u.time_for_send u.skip_day_id utcNow
      h m hp hb hskip
  rw [hoff, Option.getD_some] at hlt
  refine ⟨r - off, ?_, ?_, by omega, ?_, ?_⟩
  · simp only [schedule_fire_instant, hr, hoff, Option.getD_some, add_zero]
  · simp only [true_utc_fire_instant, hr, hoff, Option.getD_some]
  · have : r - off + off = r := by ring
    rw [this]
    exact hwd
  · have : r - off + off = r := by ring
    rw [this]
    exact hmod

/-- Witness for C5 (amended) for a Moscow user at reference instant 0. -/
theorem c5_fire_instant_on_utc_host_witness :
    ∃ f, schedule_fire_instant 0 ⟨1, "en", "Europe/Moscow", "08:00", [], true⟩ 0 =
        some f ∧
      true_utc_fire_instant ⟨1, "en", "Europe/Moscow", "08:00", [], true⟩ 0 =
        some f ∧
      (0 : Int) < f ∧
      ((f + 180) / 1440) % 7 ∉ ([] : List Int) ∧
      (f + 180) % 1440 = 8 * 60 + 0 :=
  c5_fire_instant_on_utc_host ⟨1, "en", "Europe/Moscow", "08:00", [], true⟩ 0
    180 8 0 rfl (by decide) (by decide) (by decide)

/-- Claim C6 (confirmed): scheduling a user twice in succession leaves
exactly one pending job for that user in the job table — the jobs of that
user are precisely the one installed by the second call, whose `fire_at` is
the instant the second call computed.  The first call's job is removed by
the prefix sweep (scheduler.py:81-83) before the new one is installed. -/
theorem c6_schedule_idempotent (machineOff : Int) (u : User)
    (now1 now2 : Int) (jobs : List Job) (f2 : Int)
    (h2 : schedule_fire_instant machineOff u now2 = some f2) :
    (schedule_user_message machineOff u now2
        (schedule_user_message machineOff u now1 jobs)).filter
      (fun j => decide (j.chat_id = u.chat_id)) = [⟨u.chat_id, f2⟩] := by
  set js1 := schedule_user_message machineOff u now1 jobs with hjs1
  unfold schedule_user_message
  rw [h2, List.filter_append, List.filter_filter]
  have h1 : js1.filter
      (fun j => decide (j.chat_id = u.chat_id) && decide (j.chat_id ≠ u.chat_id)) = [] := by
    apply List.filter_eq_nil_iff.mpr
    intro j _
    by_cases hc : j.chat_id = u.chat_id <;> simp [hc]
  rw [h1]
  simp

/-- Witness for C6 with a concrete user, empty initial table and two
distinct call instants. -/
theorem c6_schedule_idempotent_witness :
    (schedule_user_message 0 ⟨1, "en", "UTC", "08:00", [], true⟩ 5
        (schedule_user_message 0 ⟨1, "en", "UTC", "08:00", [], true⟩ 0 [])).filter
      (fun j => decide (j.chat_id = (1 : Int))) = [⟨1, 480⟩] :=
  c6_schedule_idempotent 0 ⟨1, "en", "UTC", "08:00", [], true⟩ 0 5 [] 480
    (by decide)

/-- Claim C7 (confirmed): a `Forbidden` (blocked-recipient) outcome on the
first iteration makes the retry loop return failure immediately — exactly
one iteration runs, the user is deactivated — and the firing path then
neither writes a sent log nor schedules a new job. -/
theorem c7_forbidden_permanent_failure (storage : List User) (chat : Int)
    (u : User) (hasPid hasImg pathSome : Bool) (e : AttemptEnv)
    (rest : List AttemptEnv)
    (hu : findUser storage chat = some u) (hact : u.is_active = true)
    (hfb : tryBody hasPid hasImg pathSome e = Except.error PyExn.forbidden) :
    send_message_with_retry hasPid hasImg pathSome (e :: rest) =
      ⟨false, true, 1⟩ ∧
    send_principle_fire storage chat true hasPid hasImg pathSome (e :: rest) =
      ⟨true, false, false, true⟩ := by
  have hr : send_message_with_retry hasPid hasImg pathSome (e :: rest) =
      ⟨false, true, 1⟩ := by
    simp only [send_message_with_retry, hfb]
  refine ⟨hr, ?_⟩
  simp only [send_principle_fire, hu, hact, hr]
  rfl

/-- Witness for C7: single forbidden text outcome, no image path. -/
theorem c7_forbidden_permanent_failure_witness :
    send_message_with_retry false false false
        [⟨Except.ok (), Except.error PyExn.forbidden⟩] = ⟨false, true, 1⟩ ∧
    send_principle_fire [⟨1, "en", "UTC", "08:00", [], true⟩] 1 true false
        false false [⟨Except.ok (), Except.error PyExn.forbidden⟩] =
      ⟨true, false, false, true⟩ :=
  c7_forbidden_permanent_failure [⟨1, "en", "UTC", "08:00", [], true⟩] 1
    ⟨1, "en", "UTC", "08:00", [], true⟩ false false false
    ⟨Except.ok (), Except.error PyExn.forbidden⟩ [] rfl rfl rfl

/-- Claim C8 (confirmed): the firing path re-fetches the user from storage;
when the user is missing or inactive at fire time nothing happens — no
delivery attempt, no sent log, no new job, no deactivation — and
conversely a delivery attempt implies the freshly fetched user was active. -/
theorem c8_fire_rechecks_active (storage : List User) (chat : Int)
    (hasPrinciple hasPid hasImg pathSome : Bool) (envs : List AttemptEnv) :
    ((findUser storage chat = none ∨
        ∃ u, findUser storage chat = some u ∧ u.is_active = false) →
      send_principle_fire storage chat hasPrinciple hasPid hasImg pathSome
        envs = ⟨false, false, false, false⟩) ∧
    ((send_principle_fire storage chat hasPrinciple hasPid hasImg pathSome
        envs).delivery_called = true →
      ∃ u, findUser storage chat = some u ∧ u.is_active = true) := by
  constructor
  · rintro (hn | ⟨u, hu, hin⟩)
    · simp only [send_principle_fire, hn]
    · simp only [send_principle_fire, hu]
      rw [if_pos hin]
  · intro hd
    cases hfu : findUser storage chat with
    | none =>
      simp only [send_principle_fire, hfu] at hd
      exact Bool.noConfusion hd
    | some u =>
      simp only [send_principle_fire, hfu] at hd
      refine ⟨u, rfl, ?_⟩
      by_cases ha : u.is_active = true
      · exact ha
      · have ha' : u.is_active = false := by
          revert ha
          cases u.is_active <;> simp
        rw [if_pos ha'] at hd
        simp at hd

/-- Witness for C8: an inactive stored user produces the no-op effects. -/
theorem c8_fire_rechecks_active_witness :
    send_principle_fire [⟨1, "en", "UTC", "08:00", [], false⟩] 1 true false
      false false [] = ⟨false, false, false, false⟩ :=
  (c8_fire_rechecks_active [⟨1, "en", "UTC", "08:00", [], false⟩] 1 true
      false false false []).1
    (Or.inr ⟨⟨1, "en", "UTC", "08:00", [], false⟩, rfl, rfl⟩)

/-- Claim C9 (confirmed): with an attachment present, the attachment is
tried first and any attachment error falls back to plain-text delivery of
the same content inside the same loop iteration: when the fallback text
send succeeds, the whole call succeeds having used exactly one iteration,
so the fallback consumed no retry. -/
theorem c9_attachment_fallback_same_attempt (e : AttemptEnv)
    (rest : List AttemptEnv) (ex : PyExn)
    (hph : e.photo = Except.error ex) :
    tryBody true true true e = e.text ∧
    (e.text = Except.ok () →
      send_message_with_retry true true true (e :: rest) = ⟨true, false, 1⟩) := by
  have ht : tryBody true true true e = e.text := by
    simp only [tryBody, hph, Bool.and_self, if_true]
  refine ⟨ht, fun hok => ?_⟩
  simp only [send_message_with_retry, ht, hok]

/-- Witness for C9: photo raises `BadRequest`, text succeeds, one attempt. -/
theorem c9_attachment_fallback_same_attempt_witness :
    send_message_with_retry true true true
      [⟨Except.error PyExn.badRequest, Except.ok ()⟩] = ⟨true, false, 1⟩ :=
  (c9_attachment_fallback_same_attempt
    ⟨Except.error PyExn.badRequest, Except.ok ()⟩ [] PyExn.badRequest rfl).2 rfl

/-- Claim C10 (confirmed): the retry send is total at its interface — for
every environment trace it returns a `RetryState` using at most the given
bound of iterations, and a `False` return is always accounted for: either
some iteration's outcome was a terminal classification (`Forbidden` /
`BadRequest`), or every iteration's outcome was retryable and the bound was
exhausted.  Every modelled exception is matched by a handler, so no
delivery error escapes to the timer callback. -/
theorem c10_retry_total_classification (hasPid hasImg pathSome : Bool)
    (envs : List AttemptEnv) :
    (send_message_with_retry hasPid hasImg pathSome envs).attemptsUsed ≤
      envs.length ∧
    ((send_message_with_retry hasPid hasImg pathSome envs).success = false →
      (∃ e ∈ envs,
        isTerminalFailure (tryBody hasPid hasImg pathSome e) = true) ∨
      (∀ e ∈ envs,
        isRetryableOutcome (tryBody hasPid hasImg pathSome e) = true)) := by
  induction envs with
  | nil =>
    refine ⟨Nat.le_refl 0, fun _ => Or.inr ?_⟩
    intro e he
    exact absurd he (List.not_mem_nil e)
  | cons env rest ih =>
    cases htb : tryBody hasPid hasImg pathSome env with
    | ok u =>
      simp only [send_message_with_retry, htb, List.length_cons]
      exact ⟨Nat.succ_le_succ (Nat.zero_le _), fun h => absurd h (by simp)⟩
    | error ex =>
      cases ex with
      | forbidden =>
        simp only [send_message_with_retry, htb, List.length_cons]
        refine ⟨Nat.succ_le_succ (Nat.zero_le _), fun _ => Or.inl ?_⟩
        exact ⟨env, List.mem_cons_self env rest, by rw [htb]; rfl⟩
      | badRequest =>
        simp only [send_message_with_retry, htb, List.length_cons]
        refine ⟨Nat.succ_le_succ (Nat.zero_le _), fun _ => Or.inl ?_⟩
        exact ⟨env, List.mem_cons_self env rest, by rw [htb]; rfl⟩
      | telegramError =>
        simp only [send_message_with_retry, htb, List.length_cons]
        refine ⟨Nat.succ_le_succ ih.1, fun hs => ?_⟩
        rcases ih.2 hs with ⟨e', he', ht'⟩ | hall
        · exact Or.inl ⟨e', List.mem_cons_of_mem env he', ht'⟩
        · refine Or.inr fun e he => ?_
          rcases List.mem_cons.mp he with rfl | hr
          · rw [htb]
            rfl
          · exact hall e hr
      | otherError =>
        simp only [send_message_with_retry, htb, List.length_cons]
        refine ⟨Nat.succ_le_succ ih.1, fun hs => ?_⟩
        rcases ih.2 hs with ⟨e', he', ht'⟩ | hall
        · exact Or.inl ⟨e', List.mem_cons_of_mem env he', ht'⟩
        · refine Or.inr fun e he => ?_
          rcases List.mem_cons.mp he with rfl | hr
          · rw [htb]
            rfl
          · exact hall e hr

/-- Witness for C10 (its statement carries implications): the bound holds
on a concrete one-attempt trace. -/
theorem c10_retry_total_classification_witness :
    (send_message_with_retry false false false
      [⟨Except.ok (), Except.ok ()⟩]).attemptsUsed ≤ 1 :=
  (c10_retry_total_classification false false false
    [⟨Except.ok (), Except.ok ()⟩]).1

/-- Claim C1 counterexample: an active user whose three attempts all end in
retryable `TelegramError`s (a transient failure with retries exhausted) is
indeed not deactivated, but the firing path does *not* schedule a new job —
`_schedule_user_message` is only called on the success branch
(scheduler.py:123-131), so `rescheduled = false`, contradicting the claim
that a new job is still scheduled. -/
theorem c1_counterexample :
    (send_principle_fire [⟨1, "en", "UTC", "08:00", [], true⟩] 1 true false
        false false
        [⟨Except.ok (), Except.error PyExn.telegramError⟩,
          ⟨Except.ok (), Except.error PyExn.telegramError⟩,
          ⟨Except.ok (), Except.error PyExn.telegramError⟩]).rescheduled =
      false ∧
    (send_principle_fire [⟨1, "en", "UTC", "08:00", [], true⟩] 1 true false
        false false
        [⟨Except.ok (), Except.error PyExn.telegramError⟩,
          ⟨Except.ok (), Except.error PyExn.telegramError⟩,
          ⟨Except.ok (), Except.error PyExn.telegramError⟩]).deactivated =
      false := by
  decide

/-- Claim C1 as amended (corrected): when every retry attempt ends in a
retryable (transient) error, the scheduler does not deactivate the user,
but it also does not schedule a new job in the firing path; the user stays
active, and the daily 00:01 reconciliation sweep — which reschedules every
active user — installs a job for them. -/
theorem c1_transient_keeps_user_active_and_sweep_rearms
    (storage : List User) (chat : Int) (u : User)
    (hasPid hasImg pathSome : Bool) (envs : List AttemptEnv)
    (machineOff utcNow : Int) (jobs : List Job) (f : Int)
    (hu : findUser storage chat = some u) (hact : u.is_active = true)
    (hretry : ∀ e ∈ envs,
      isRetryableOutcome (tryBody hasPid hasImg pathSome e) = true)
    (hf : schedule_fire_instant machineOff u utcNow = some f) :
    send_principle_fire storage chat true hasPid hasImg pathSome envs =
      ⟨true, false, false, false⟩ ∧
    ∃ j ∈ schedule_all_users machineOff utcNow storage jobs,
      j.chat_id = u.chat_id := by
  have hr := retry_all_retryable hasPid hasImg pathSome envs hretry
  constructor
  · simp only [send_principle_fire, hu, hact, hr]
    rfl
  · exact sweep_schedules_active_user machineOff utcNow storage jobs u f
      (List.mem_of_find?_eq_some hu) hact hf

/-- Witness for C1 (amended): one active UTC user, three transient
failures, sweep at the same reference instant. -/
theorem c1_transient_keeps_user_active_and_sweep_rearms_witness :
    send_principle_fire [⟨2, "en", "UTC", "09:30", [], true⟩] 2 true false
        false false
        [⟨Except.ok (), Except.error PyExn.otherError⟩,
          ⟨Except.ok (), Except.error PyExn.otherError⟩,
          ⟨Except.ok (), Except.error PyExn.otherError⟩] =
      ⟨true, false, false, false⟩ ∧
    ∃ j ∈ schedule_all_users 0 0 [⟨2, "en", "UTC", "09:30", [], true⟩] [],
      j.chat_id = (2 : Int) :=
  c1_transient_keeps_user_active_and_sweep_rearms
    [⟨2, "en", "UTC", "09:30", [], true⟩] 2
    ⟨2, "en", "UTC", "09:30", [], true⟩ false false false
    [⟨Except.ok (), Except.error PyExn.otherError⟩,
      ⟨Except.ok (), Except.error PyExn.otherError⟩,
      ⟨Except.ok (), Except.error PyExn.otherError⟩] 0 0 [] 570 rfl rfl
    (by decide) (by decide)
